import Mathlib

/-!
Verification development for the word-mcp bridge layer.

Shallow embedding of the parts of the code base the specification talks
about:

* `src/word_mcp/com_pool.py` — the semaphore-limited COM instance pool
  (`COMPool.get_word_app`), modelled twice: as a per-call trace semantics
  (`runGetWordApp`) recording the cleanup/release events of one scoped
  acquisition, and as a small-step relation (`PoolStep`) over a
  configuration of threads each advancing through the program points of
  `get_word_app`, for the concurrency invariant.
* `src/word_mcp/document_manager.py` — the `DocumentManager` registry
  (dictionary keyed by normalized absolute path or `Untitled-N`
  placeholder), with the filesystem abstracted to an oracle `FS`
  (existence test and `Path.resolve` normalization) and `Document()`
  object allocation abstracted to a fresh-id supply.
* `src/word_mcp/tools/tracked_editing.py` and
  `src/word_mcp/tools/tracked_changes.py` — the automation-bridge
  operations, with the COM document abstracted to a `ComDoc` value
  (tracking flag, paragraph list with the `Information(wdWithInTable)`
  oracle, revision list); mutating COM calls are recorded as events.
-/

namespace WordMcp

/-! ### COM pool: per-call semantics of `COMPool.get_word_app`

One scoped acquisition of `get_word_app` (com_pool.py lines 61-151).
The environment decides which fallible operations fail:

* `LaunchResult.noApp` — `win32com.client.DispatchEx` itself raises, so
  the local `app` stays `None`;
* `LaunchResult.appFail` — `DispatchEx` succeeded but setting
  `app.Visible` / `app.DisplayAlerts` raised, so `app` is non-None but
  was never appended to `_active_instances`;
* `LaunchResult.ok` — instance creation succeeded and the instance was
  registered (`_active_instances.append`, `total_created += 1`).

`bodyOk` is whether the caller's `with`-body completed without raising;
`closeDocsOk` / `quitOk` are whether the two COM cleanup calls in the
`finally` block (`Documents(1).Close(SaveChanges=0)` loop, `app.Quit()`)
raised.  Both are wrapped in their own `try/except` in the source, so
they never alter control flow; they are carried in the outcome record
precisely so we can prove the event trace does not depend on them.
The removal from `_active_instances` and the semaphore release are pure
in-process operations (a guarded `list.remove` under a lock) and cannot
raise, matching the source, where they carry no `except` of their own.
-/

inductive LaunchResult
  | noApp
  | appFail
  | ok
deriving DecidableEq, Repr

structure PoolOutcome where
  launch : LaunchResult
  bodyOk : Bool
  closeDocsOk : Bool
  quitOk : Bool
deriving DecidableEq, Repr

inductive PoolEvent
  | acquire
  | createApp
  | register
  | yieldApp
  | closeDocs
  | quit
  | deregister
  | release
deriving DecidableEq, Repr

structure PoolRunResult where
  events : List PoolEvent
  createdDelta : Nat
  failedDelta : Nat
  raised : Bool
deriving DecidableEq, Repr

/-- Trace semantics of one call to `COMPool.get_word_app`

Control flow of com_pool.py lines 82-151:
`self._semaphore.acquire()`; `try:` create + register + `yield`;
`except Exception:` `total_failed += 1`, re-raise; `finally:` if `app`
is non-None run the three cleanup steps, then always
`self._semaphore.release()`. -/
def runGetWordApp (o : PoolOutcome) : PoolRunResult :=
  match o.launch with
  | LaunchResult.noApp =>
      -- DispatchEx raised: app is None, except-branch bumps total_failed,
      -- finally skips the `if app:` cleanup and releases the semaphore,
      -- then the exception propagates to the caller.
      { events := [PoolEvent.acquire, PoolEvent.release]
        createdDelta := 0
        failedDelta := 1
        raised := true }
  | LaunchResult.appFail =>
      -- DispatchEx succeeded but configuring the instance raised before
      -- the `_active_instances.append`: cleanup runs on the unregistered
      -- app (the `if app in self._active_instances` guard removes
      -- nothing), the slot is released, the exception propagates.
      { events := [PoolEvent.acquire, PoolEvent.createApp,
                   PoolEvent.closeDocs, PoolEvent.quit,
                   PoolEvent.deregister, PoolEvent.release]
        createdDelta := 0
        failedDelta := 1
        raised := true }
  | LaunchResult.ok =>
      { events := [PoolEvent.acquire, PoolEvent.createApp,
                   PoolEvent.register, PoolEvent.yieldApp,
                   PoolEvent.closeDocs, PoolEvent.quit,
                   PoolEvent.deregister, PoolEvent.release]
        createdDelta := 1
        failedDelta := if o.bodyOk then 0 else 1
        raised := !o.bodyOk }

/-! ### COM pool: multi-thread step relation

Each thread advances through the program points of `get_word_app`.
`Phase.idle` is outside the scope; `Phase.acquired` is after
`self._semaphore.acquire()` (line 83) but before the instance is
registered; `Phase.active` is after `_active_instances.append(app)`
(line 94): the thread's instance is live; `Phase.cleaned` is after the
instance was removed from `_active_instances` (line 136) but before
`self._semaphore.release()` (line 151). -/

inductive Phase
  | idle
  | acquired
  | active
  | cleaned
deriving DecidableEq, Repr

structure PoolConfig where
  sem : Nat
  threads : List Phase
  created : Nat
  failed : Nat

/-- One atomic transition of one thread inside `get_word_app`.  The
semaphore only lets an `acquire` proceed when its counter is positive;
`launchFail` is the path where `DispatchEx` raises (no instance ever
registered, `total_failed += 1`, slot released, exception propagates);
`finishErr` is a body exception (`total_failed += 1` in the except
branch, then the cleanup removes the instance). -/
inductive PoolStep : PoolConfig → PoolConfig → Prop
  | acquire (s : Nat) (l₁ l₂ : List Phase) (cr f : Nat) :
      PoolStep ⟨s + 1, l₁ ++ Phase.idle :: l₂, cr, f⟩
               ⟨s, l₁ ++ Phase.acquired :: l₂, cr, f⟩
  | create (s : Nat) (l₁ l₂ : List Phase) (cr f : Nat) :
      PoolStep ⟨s, l₁ ++ Phase.acquired :: l₂, cr, f⟩
               ⟨s, l₁ ++ Phase.active :: l₂, cr + 1, f⟩
  | launchFail (s : Nat) (l₁ l₂ : List Phase) (cr f : Nat) :
      PoolStep ⟨s, l₁ ++ Phase.acquired :: l₂, cr, f⟩
               ⟨s + 1, l₁ ++ Phase.idle :: l₂, cr, f + 1⟩
  | finishOk (s : Nat) (l₁ l₂ : List Phase) (cr f : Nat) :
      PoolStep ⟨s, l₁ ++ Phase.active :: l₂, cr, f⟩
               ⟨s, l₁ ++ Phase.cleaned :: l₂, cr, f⟩
  | finishErr (s : Nat) (l₁ l₂ : List Phase) (cr f : Nat) :
      PoolStep ⟨s, l₁ ++ Phase.active :: l₂, cr, f⟩
               ⟨s, l₁ ++ Phase.cleaned :: l₂, cr, f + 1⟩
  | release (s : Nat) (l₁ l₂ : List Phase) (cr f : Nat) :
      PoolStep ⟨s, l₁ ++ Phase.cleaned :: l₂, cr, f⟩
               ⟨s + 1, l₁ ++ Phase.idle :: l₂, cr, f⟩

/-- Initial configuration: semaphore at the configured pool size, `n`
worker threads outside the scope, both counters zero. -/
def initConfig (poolSize n : Nat) : PoolConfig :=
  ⟨poolSize, List.replicate n Phase.idle, 0, 0⟩

def poolReachable (poolSize n : Nat) (c : PoolConfig) : Prop :=
  Relation.ReflTransGen PoolStep (initConfig poolSize n) c

/-- Number of live automation instances: threads between the
`_active_instances.append` and the removal, i.e. `len(_active_instances)`. -/
def liveCount (c : PoolConfig) : Nat :=
  c.threads.countP (fun t => decide (t = Phase.active))

/-- Number of threads holding a semaphore permit. -/
def heldCount (c : PoolConfig) : Nat :=
  c.threads.countP (fun t => decide (t ≠ Phase.idle))

/-- Semaphore accounting invariant: permits outstanding plus the
semaphore counter equal the pool size. -/
def poolInv (poolSize : Nat) (c : PoolConfig) : Prop :=
  c.sem + heldCount c = poolSize

theorem countP_replicate_idle (p : Phase → Bool) (n : Nat) (a : Phase) :
    (List.replicate n a).countP p = if p a then n else 0 := by
  induction n with
  | zero => simp [List.replicate]
  | succ k ih =>
      by_cases h : p a <;> simp [List.replicate, List.countP_cons, ih, h]

theorem poolInv_init (poolSize n : Nat) : poolInv poolSize (initConfig poolSize n) := by
  simp [poolInv, initConfig, heldCount, countP_replicate_idle]

theorem poolInv_step {poolSize : Nat} {c c' : PoolConfig}
    (hstep : PoolStep c c') (hinv : poolInv poolSize c) : poolInv poolSize c' := by
  cases hstep <;>
    simp only [poolInv, heldCount, List.countP_append, List.countP_cons] at hinv ⊢ <;>
    simp at hinv ⊢ <;> omega

theorem poolInv_reachable {poolSize n : Nat} {c : PoolConfig}
    (h : poolReachable poolSize n c) : poolInv poolSize c := by
  induction h with
  | refl => exact poolInv_init poolSize n
  | tail _ hstep ih => exact poolInv_step hstep ih

theorem liveCount_le_heldCount (c : PoolConfig) : liveCount c ≤ heldCount c := by
  refine List.countP_mono_left ?_
  intro t _ ht
  simp at ht
  simp [ht]

/-- C1: in every configuration reachable from the initial one (semaphore
at pool size `S`, all threads outside the scope), the number of
simultaneously live automation-application instances — threads past the
`_active_instances.append` and before the removal — never exceeds `S`:
the semaphore is acquired before an instance is created and an instance
is registered only after creation, so the live count is bounded by the
outstanding permits, which the semaphore bounds by `S`. -/
theorem pool_live_count_never_exceeds_pool_size (poolSize n : Nat) (c : PoolConfig)
    (h : poolReachable poolSize n c) : liveCount c ≤ poolSize := by
  have hinv := poolInv_reachable h
  have hle := liveCount_le_heldCount c
  unfold poolInv at hinv
  omega

theorem pool_live_count_never_exceeds_pool_size_witness :
    poolReachable 1 2 ⟨0, [Phase.active, Phase.idle], 1, 0⟩ ∧
      liveCount ⟨0, [Phase.active, Phase.idle], 1, 0⟩ ≤ 1 := by
  have h1 : PoolStep (initConfig 1 2) ⟨0, [Phase.acquired, Phase.idle], 0, 0⟩ :=
    PoolStep.acquire 0 [] [Phase.idle] 0 0
  have h2 : PoolStep ⟨0, [Phase.acquired, Phase.idle], 0, 0⟩
      ⟨0, [Phase.active, Phase.idle], 1, 0⟩ :=
    PoolStep.create 0 [] [Phase.idle] 0 0
  have hreach : poolReachable 1 2 ⟨0, [Phase.active, Phase.idle], 1, 0⟩ :=
    Relation.ReflTransGen.tail (Relation.ReflTransGen.single h1) h2
  exact ⟨hreach, pool_live_count_never_exceeds_pool_size 1 2 _ hreach⟩

/-- C2: for every outcome of one call to `get_word_app`, the semaphore
slot is released exactly once and release is the last event; the event
trace (in particular, that close-documents, quit, deregister and release
all run, in that order) does not depend on whether the close-documents
or quit cleanup steps raise, because each is independently caught; and
on launch failure the failure counter increments and the exception still
propagates to the caller after the slot is released. -/
theorem pool_slot_released_exactly_once (o : PoolOutcome) :
    (runGetWordApp o).events.count PoolEvent.release = 1 ∧
    (runGetWordApp o).events.getLast? = some PoolEvent.release ∧
    (∀ c q : Bool, runGetWordApp ⟨o.launch, o.bodyOk, c, q⟩ = runGetWordApp o) ∧
    (o.launch = LaunchResult.noApp →
      (runGetWordApp o).events = [PoolEvent.acquire, PoolEvent.release]) ∧
    (o.launch = LaunchResult.appFail →
      (runGetWordApp o).events =
        [PoolEvent.acquire, PoolEvent.createApp, PoolEvent.closeDocs,
         PoolEvent.quit, PoolEvent.deregister, PoolEvent.release]) ∧
    (o.launch = LaunchResult.ok →
      (runGetWordApp o).events =
        [PoolEvent.acquire, PoolEvent.createApp, PoolEvent.register,
         PoolEvent.yieldApp, PoolEvent.closeDocs, PoolEvent.quit,
         PoolEvent.deregister, PoolEvent.release]) ∧
    (o.launch ≠ LaunchResult.ok →
      (runGetWordApp o).raised = true ∧ (runGetWordApp o).failedDelta = 1) := by
  obtain ⟨l, b, c, q⟩ := o
  cases l <;> cases b <;> simp [runGetWordApp]

theorem pool_slot_released_exactly_once_witness :
    (runGetWordApp ⟨LaunchResult.noApp, true, true, true⟩).raised = true ∧
      (runGetWordApp ⟨LaunchResult.noApp, true, true, true⟩).failedDelta = 1 :=
  (pool_slot_released_exactly_once ⟨LaunchResult.noApp, true, true, true⟩).2.2.2.2.2.2
    (by decide)

/-- C9: the pool's `total_failed` delta of one `get_word_app` call is 1
exactly when an exception propagates out of the scope — including a
body exception after a successful launch — and a single acquisition with
a successful launch but failing body increments both `total_created` and
`total_failed`. -/
theorem pool_failed_counts_body_exceptions (o : PoolOutcome) :
    ((runGetWordApp o).failedDelta = if (runGetWordApp o).raised then 1 else 0) ∧
    (o.launch = LaunchResult.ok → o.bodyOk = false →
      (runGetWordApp o).raised = true ∧
      (runGetWordApp o).createdDelta = 1 ∧ (runGetWordApp o).failedDelta = 1) := by
  obtain ⟨l, b, c, q⟩ := o
  cases l <;> cases b <;> simp [runGetWordApp]

theorem pool_failed_counts_body_exceptions_witness :
    (runGetWordApp ⟨LaunchResult.ok, false, true, true⟩).raised = true ∧
      (runGetWordApp ⟨LaunchResult.ok, false, true, true⟩).createdDelta = 1 ∧
      (runGetWordApp ⟨LaunchResult.ok, false, true, true⟩).failedDelta = 1 :=
  (pool_failed_counts_body_exceptions ⟨LaunchResult.ok, false, true, true⟩).2
    (by decide) (by decide)

/-! ### Paragraph index translator

`_translate_paragraph_index` (tracked_editing.py lines 40-89).  A COM
paragraph is modelled by the two observations the function makes of it:
the result of `para.Range.Information(wdWithInTable)` (`none` when the
COM call raises, `some b` when it returns `b`) and `para.Range.Text`. -/

structure ComPara where
  info : Option Bool
  text : String
deriving DecidableEq, Repr

/-- `in_table` as computed at tracked_editing.py lines 72-76: the
`Information` result, with a raising call conservatively treated as a
body paragraph (`in_table = False`). -/
def paraInTable (p : ComPara) : Bool :=
  match p.info with
  | none => false
  | some b => b

inductive TranslateErr
  | negative (idx : Int)
  | outOfRange (idx : Int) (bodyCount : Nat)
deriving DecidableEq, Repr

/-- The `ValueError` / `IndexError` messages of
`_translate_paragraph_index` (lines 62 and 85-89). -/
def transErrMessage : TranslateErr → String
  | TranslateErr.negative i =>
      "Paragraph index must be non-negative, got " ++ toString i
  | TranslateErr.outOfRange i c =>
      "Paragraph index " ++ toString i ++ " is out of range. " ++
      "Document has " ++ toString c ++ " body paragraph(s) " ++
      "(valid range: 0-" ++ toString ((c : Int) - 1) ++ ")."

/-- The `for com_index in range(1, total+1)` loop of
`_translate_paragraph_index` (lines 67-82): `comIndex` is the 1-based
scan position, `bodyCount` the running body-paragraph counter; on
exhaustion the final body count is reported (line 84-89). -/
def translateLoop (paras : List ComPara) (comIndex bodyCount target : Nat) :
    Except Nat Nat :=
  match paras with
  | [] => Except.error bodyCount
  | p :: rest =>
      if paraInTable p then
        translateLoop rest (comIndex + 1) bodyCount target
      else if bodyCount = target then
        Except.ok comIndex
      else
        translateLoop rest (comIndex + 1) (bodyCount + 1) target

/-- `_translate_paragraph_index(com_doc, python_docx_index)`. -/
def translateParagraphIndex (paras : List ComPara) (idx : Int) :
    Except TranslateErr Nat :=
  if idx < 0 then
    Except.error (TranslateErr.negative idx)
  else
    match translateLoop paras 1 0 idx.toNat with
    | Except.ok i => Except.ok i
    | Except.error c => Except.error (TranslateErr.outOfRange idx c)

/-- Body-level paragraphs in a paragraph collection. -/
def bodyParaCount (paras : List ComPara) : Nat :=
  paras.countP (fun p => !paraInTable p)

/-- Table-interior paragraphs in a paragraph collection. -/
def tableParaCount (paras : List ComPara) : Nat :=
  paras.countP (fun p => paraInTable p)

theorem bodyParaCount_cons (p : ComPara) (rest : List ComPara) :
    bodyParaCount (p :: rest) =
      (if paraInTable p then 0 else 1) + bodyParaCount rest := by
  by_cases h : paraInTable p <;> simp [bodyParaCount, List.countP_cons, h] <;> omega

theorem tableParaCount_cons (p : ComPara) (rest : List ComPara) :
    tableParaCount (p :: rest) =
      (if paraInTable p then 1 else 0) + tableParaCount rest := by
  by_cases h : paraInTable p <;> simp [tableParaCount, List.countP_cons, h] <;> omega

theorem translateLoop_exhausts (paras : List ComPara) :
    ∀ ci bc target : Nat, bc + bodyParaCount paras ≤ target →
      translateLoop paras ci bc target = Except.error (bc + bodyParaCount paras) := by
  induction paras with
  | nil => intro ci bc target _; simp [translateLoop, bodyParaCount]
  | cons p rest ih =>
      intro ci bc target hle
      rw [bodyParaCount_cons] at hle ⊢
      by_cases h : paraInTable p
      · simp only [translateLoop, h, if_pos]
        rw [ih (ci + 1) bc target (by omega)]
        simp [h]
      · have hne : bc ≠ target := by simp [h] at hle; omega
        simp only [translateLoop, h, if_neg, if_false, Bool.false_eq_true, hne, ite_false]
        rw [ih (ci + 1) (bc + 1) target (by simp [h] at hle ⊢; omega)]
        simp [h]
        omega

theorem translateLoop_finds (paras : List ComPara) :
    ∀ ci bc target : Nat, bc ≤ target → target < bc + bodyParaCount paras →
      ∃ j, translateLoop paras ci bc target = Except.ok (ci + j) ∧
        j < paras.length ∧
        bodyParaCount (paras.take j) + bc = target ∧
        ∃ q, paras.get? j = some q ∧ paraInTable q = false := by
  induction paras with
  | nil =>
      intro ci bc target hle hlt
      simp [bodyParaCount] at hlt
      omega
  | cons p rest ih =>
      intro ci bc target hle hlt
      rw [bodyParaCount_cons] at hlt
      by_cases h : paraInTable p
      · simp only [translateLoop, h, if_pos]
        simp only [h, if_pos] at hlt
        obtain ⟨j, hrun, hlen, hcnt, q, hq, hqt⟩ :=
          ih (ci + 1) bc target hle (by omega)
        refine ⟨j + 1, ?_, by simpa using Nat.succ_lt_succ hlen, ?_, q, by simpa using hq, hqt⟩
        · rw [hrun]; congr 1; omega
        · simp [List.take_succ_cons, bodyParaCount_cons, h]
          omega
      · by_cases heq : bc = target
        · refine ⟨0, ?_, by simp, by simp [bodyParaCount, heq], p, by simp, by simpa using h⟩
          simp [translateLoop, h, heq]
        · simp only [translateLoop, h, Bool.false_eq_true, if_false, heq, ite_false]
          simp only [h, if_neg, Bool.false_eq_true, ite_false] at hlt
          obtain ⟨j, hrun, hlen, hcnt, q, hq, hqt⟩ :=
            ih (ci + 1) (bc + 1) target (by omega) (by omega)
          refine ⟨j + 1, ?_, by simpa using Nat.succ_lt_succ hlen, ?_, q, by simpa using hq, hqt⟩
          · rw [hrun]; congr 1; omega
          · simp [List.take_succ_cons, bodyParaCount_cons, h]
            omega

/-- Lengths of a prefix split into body and table-interior paragraphs. -/
theorem take_length_split (paras : List ComPara) (j : Nat) (hj : j ≤ paras.length) :
    bodyParaCount (paras.take j) + tableParaCount (paras.take j) = j := by
  have h : bodyParaCount (paras.take j) + tableParaCount (paras.take j) =
      (paras.take j).length := by
    induction paras.take j with
    | nil => simp [bodyParaCount, tableParaCount]
    | cons p rest ih =>
        rw [bodyParaCount_cons, tableParaCount_cons, List.length_cons]
        by_cases hp : paraInTable p <;> simp [hp] <;> omega
  have hlen : (paras.take j).length = j := List.length_take_of_le hj
  omega

/-- C3: for every paragraph collection (a paragraph whose positional
query raised counting as body) and every non-negative structural index
`k`, the translator returns the 1-based position `p` of the `(k+1)`-th
body paragraph — so `p = k + 1 +` (table-interior paragraphs before
`p`) — and when the collection has at most `k` body paragraphs it fails
with an out-of-range error reporting the actual body count found. -/
theorem translate_returns_nth_body_position (paras : List ComPara) (k : Nat) :
    (k < bodyParaCount paras →
      ∃ p, translateParagraphIndex paras (k : Int) = Except.ok p ∧
        1 ≤ p ∧ p ≤ paras.length ∧
        p = k + 1 + tableParaCount (paras.take (p - 1)) ∧
        bodyParaCount (paras.take (p - 1)) = k ∧
        ∃ q, paras.get? (p - 1) = some q ∧ paraInTable q = false) ∧
    (bodyParaCount paras ≤ k →
      translateParagraphIndex paras (k : Int) =
        Except.error (TranslateErr.outOfRange (k : Int) (bodyParaCount paras))) := by
  constructor
  · intro hk
    obtain ⟨j, hrun, hlen, hcnt, q, hq, hqt⟩ :=
      translateLoop_finds paras 1 0 k (Nat.zero_le k) (by omega)
    have htonat : (k : Int).toNat = k := Int.toNat_natCast k
    refine ⟨1 + j, ?_, by omega, by omega, ?_, ?_, q, ?_, hqt⟩
    · simp only [translateParagraphIndex]
      rw [if_neg (by omega), htonat, hrun]
    · have hsplit := take_length_split paras j (Nat.le_of_lt hlen)
      have : 1 + j - 1 = j := by omega
      rw [this]
      omega
    · have : 1 + j - 1 = j := by omega
      rw [this]; omega
    · have : 1 + j - 1 = j := by omega
      rw [this]; exact hq
  · intro hk
    have htonat : (k : Int).toNat = k := Int.toNat_natCast k
    simp only [translateParagraphIndex]
    rw [if_neg (by omega), htonat,
      translateLoop_exhausts paras 1 0 k (by omega)]
    simp

theorem translate_returns_nth_body_position_witness :
    ∃ p, translateParagraphIndex
        [⟨some false, "a"⟩, ⟨some true, "c1"⟩, ⟨some true, "c2"⟩, ⟨some false, "b"⟩]
        (1 : Int) = Except.ok p ∧
      1 ≤ p ∧
      p ≤ (4 : Nat) ∧
      p = 1 + 1 + tableParaCount
        ([⟨some false, "a"⟩, ⟨some true, "c1"⟩, ⟨some true, "c2"⟩,
          (⟨some false, "b"⟩ : ComPara)].take (p - 1)) ∧
      bodyParaCount
        ([⟨some false, "a"⟩, ⟨some true, "c1"⟩, ⟨some true, "c2"⟩,
          (⟨some false, "b"⟩ : ComPara)].take (p - 1)) = 1 ∧
      ∃ q, [⟨some false, "a"⟩, ⟨some true, "c1"⟩, ⟨some true, "c2"⟩,
          (⟨some false, "b"⟩ : ComPara)].get? (p - 1) = some q ∧ paraInTable q = false :=
  (translate_returns_nth_body_position
    [⟨some false, "a"⟩, ⟨some true, "c1"⟩, ⟨some true, "c2"⟩, ⟨some false, "b"⟩] 1).1
    (by decide)

/-! ### Document registry

`DocumentManager` (document_manager.py).  The filesystem and path
normalization are abstracted to an oracle `FS`: `fileExists` is
`Path(p).exists()`, `norm` is `str(Path(p).resolve())`, `baseName` is
`Path(p).name`.  `Document` objects are abstracted to handle ids
(`Nat`), with a caller-supplied fresh id standing for a newly
constructed `Document()`.  The `_documents` dict is an insertion-ordered
association list, as a Python dict is. -/

structure FS where
  fileExists : String → Bool
  norm : String → String
  baseName : String → String

abbrev Handle := Nat

structure DocManager where
  documents : List (String × Handle)
  untitledCounter : Nat
deriving DecidableEq, Repr

/-- Python dict lookup `self._documents[k]` / `k in self._documents`. -/
def dictLookup (k : String) : List (String × Handle) → Option Handle
  | [] => none
  | (k0, v0) :: rest => if k0 = k then some v0 else dictLookup k rest

/-- Python dict assignment `self._documents[k] = v`: updates in place if
the key is present (dicts keep insertion order), else appends. -/
def dictInsert (k : String) (v : Handle) : List (String × Handle) → List (String × Handle)
  | [] => [(k, v)]
  | (k0, v0) :: rest => if k0 = k then (k0, v) :: rest else (k0, v0) :: dictInsert k v rest

/-- Python `del self._documents[k]` on a present key. -/
def dictRemove (k : String) : List (String × Handle) → List (String × Handle)
  | [] => []
  | (k0, v0) :: rest => if k0 = k then rest else (k0, v0) :: dictRemove k rest

inductive DMErr
  | fileExistsAt (path : String)
  | fileNotFound (path : String)
  | notOpen (path : String)
  | cannotSaveUntitled
deriving DecidableEq, Repr

/-- `DocumentManager._next_untitled` (lines 35-43): bump the counter,
return `Untitled-N` for the new counter value. -/
def nextUntitled (m : DocManager) : String × DocManager :=
  ("Untitled-" ++ toString (m.untitledCounter + 1),
    { m with untitledCounter := m.untitledCounter + 1 })

/-- Python `s.startswith(pre)`: a character-level prefix test. -/
def pyStartsWith (s pre : String) : Bool :=
  pre.toList.isPrefixOf s.toList

/-- Python `needle in hay` on the character lists. -/
def pyContainsList (needle : List Char) : List Char → Bool
  | [] => needle.isEmpty
  | c :: rest => needle.isPrefixOf (c :: rest) || pyContainsList needle rest

/-- Python `needle in hay` for strings: case-sensitive substring test. -/
def pyContains (hay needle : String) : Bool :=
  pyContainsList needle.toList hay.toList

/-- The key computation shared by `save_document`, `close_document`,
`get_document` and every bridge tool:
`key = path if path.startswith("Untitled-") else str(Path(path).resolve())`. -/
def resolveKey (fs : FS) (path : String) : String :=
  if pyStartsWith path "Untitled-" then path else fs.norm path

/-- `DocumentManager.create_document` (lines 57-87). -/
def createDocument (fs : FS) (m : DocManager) (fresh : Handle) (path : Option String) :
    Except DMErr ((String × Handle) × DocManager) :=
  match path with
  | some p =>
      let absPath := fs.norm p
      if fs.fileExists absPath then
        Except.error (DMErr.fileExistsAt absPath)
      else
        Except.ok ((absPath, fresh),
          { m with documents := dictInsert absPath fresh m.documents })
  | none =>
      let km := nextUntitled m
      Except.ok ((km.1, fresh),
        { km.2 with documents := dictInsert km.1 fresh km.2.documents })

/-- `DocumentManager.open_document` (lines 89-117).  The `Bool` in the
result records whether the file was loaded from disk (`Document(abs_path)`
ran); a cache hit returns the registered handle without re-reading. -/
def openDocument (fs : FS) (m : DocManager) (fresh : Handle) (path : String) :
    Except DMErr (Handle × DocManager × Bool) :=
  let absPath := fs.norm path
  match dictLookup absPath m.documents with
  | some doc => Except.ok (doc, m, false)
  | none =>
      if fs.fileExists absPath then
        Except.ok (fresh,
          { m with documents := dictInsert absPath fresh m.documents }, true)
      else
        Except.error (DMErr.fileNotFound absPath)

/-- `DocumentManager.create_from_template` (lines 119-162). -/
def createFromTemplate (fs : FS) (m : DocManager) (fresh : Handle)
    (templatePath : String) (savePath : Option String) :
    Except DMErr ((String × Handle) × DocManager) :=
  let absTemplate := fs.norm templatePath
  if fs.fileExists absTemplate then
    match savePath with
    | some sp =>
        let absSave := fs.norm sp
        if fs.fileExists absSave then
          Except.error (DMErr.fileExistsAt absSave)
        else
          Except.ok ((absSave, fresh),
            { m with documents := dictInsert absSave fresh m.documents })
    | none =>
        let km := nextUntitled m
        Except.ok ((km.1, fresh),
          { km.2 with documents := dictInsert km.1 fresh km.2.documents })
  else
    Except.error (DMErr.fileNotFound absTemplate)

/-- Filesystem side effects of a save, in issue order:
`Path(...).parent.mkdir(parents=True, exist_ok=True)` and `doc.save(...)`. -/
inductive FsEffect
  | mkdirParents (path : String)
  | writeFile (path : String)
deriving DecidableEq, Repr

structure SaveResult where
  res : Except DMErr Unit
  dm : DocManager
  effects : List FsEffect
deriving Repr

/-- `DocumentManager.save_document` (lines 164-206).  Note the key for a
path starting with `Untitled-` is taken verbatim, before any
normalization. -/
def saveDocument (fs : FS) (m : DocManager) (path : String) (saveAs : Option String) :
    SaveResult :=
  let currentKey := resolveKey fs path
  match dictLookup currentKey m.documents with
  | none => ⟨Except.error (DMErr.notOpen path), m, []⟩
  | some doc =>
      match saveAs with
      | some newPath =>
          let absNew := fs.norm newPath
          ⟨Except.ok (),
            { m with documents := dictInsert absNew doc (dictRemove currentKey m.documents) },
            [FsEffect.mkdirParents absNew, FsEffect.writeFile absNew]⟩
      | none =>
          if pyStartsWith currentKey "Untitled-" then
            ⟨Except.error DMErr.cannotSaveUntitled, m, []⟩
          else
            ⟨Except.ok (), m,
              [FsEffect.mkdirParents currentKey, FsEffect.writeFile currentKey]⟩

/-- `DocumentManager.close_document` (lines 208-226). -/
def closeDocument (fs : FS) (m : DocManager) (path : String) :
    Except DMErr DocManager :=
  let key := resolveKey fs path
  match dictLookup key m.documents with
  | none => Except.error (DMErr.notOpen path)
  | some _ => Except.ok { m with documents := dictRemove key m.documents }

/-- `DocumentManager.get_document` (lines 228-247). -/
def getDocument (fs : FS) (m : DocManager) (path : String) : Except DMErr Handle :=
  let key := resolveKey fs path
  match dictLookup key m.documents with
  | none => Except.error (DMErr.notOpen path)
  | some doc => Except.ok doc

/-- `DocumentManager.close_all` (lines 258-272): clears the dict and
resets the untitled counter, but only when at least one document is
open; on an empty registry it returns 0 and touches nothing. -/
def closeAllDocs (m : DocManager) : Nat × DocManager :=
  if m.documents.length > 0 then
    (m.documents.length, ⟨[], 0⟩)
  else
    (0, m)

/-! ### Registry operation sequences and placeholder tokens

A process-lifetime view of the registry: a list of operations is run
from a starting state, and every placeholder value `N` used to build an
`Untitled-N` key (the only place `_next_untitled` runs) is collected. -/

inductive RegOp
  | create (path : Option String)
  | createTemplate (templatePath : String) (savePath : Option String)
  | openDoc (path : String)
  | save (path : String) (saveAs : Option String)
  | close (path : String)
  | closeAll
deriving DecidableEq, Repr

/-- One registry operation; the returned list holds the `N` of each
`Untitled-N` token generated by the operation (zero or one per
operation: only `create_document(None)` and
`create_from_template(_, None)` call `_next_untitled`). -/
def regStep (fs : FS) (st : DocManager × Nat) (op : RegOp) : (DocManager × Nat) × List Nat :=
  let m := st.1
  let fresh := st.2
  match op with
  | RegOp.create p =>
      match createDocument fs m fresh p with
      | Except.ok (_, m') =>
          ((m', fresh + 1), if p.isNone then [m'.untitledCounter] else [])
      | Except.error _ => ((m, fresh + 1), [])
  | RegOp.createTemplate tp sp =>
      match createFromTemplate fs m fresh tp sp with
      | Except.ok (_, m') =>
          ((m', fresh + 1), if sp.isNone then [m'.untitledCounter] else [])
      | Except.error _ => ((m, fresh + 1), [])
  | RegOp.openDoc p =>
      match openDocument fs m fresh p with
      | Except.ok (_, m', _) => ((m', fresh + 1), [])
      | Except.error _ => ((m, fresh + 1), [])
  | RegOp.save p sa => (((saveDocument fs m p sa).dm, fresh), [])
  | RegOp.close p =>
      match closeDocument fs m p with
      | Except.ok m' => ((m', fresh), [])
      | Except.error _ => ((m, fresh), [])
  | RegOp.closeAll => (((closeAllDocs m).2, fresh), [])

def regRun (fs : FS) (st : DocManager × Nat) : List RegOp → (DocManager × Nat) × List Nat
  | [] => (st, [])
  | op :: rest =>
      let r := regStep fs st op
      let r' := regRun fs r.1 rest
      (r'.1, r.2 ++ r'.2)

def emptyManager : DocManager := ⟨[], 0⟩

/-- A concrete filesystem oracle on which no path exists. -/
def noFileFS : FS := ⟨fun _ => false, fun s => s, fun s => s⟩

/-- C6 counterexample: the run create-untitled, close-all,
create-untitled generates the placeholder value 1 twice, because
`close_all` resets `_untitled_counter` to zero; the token list [1, 1]
is neither strictly increasing nor duplicate-free, so placeholder
tokens are reused within one process lifetime. -/
theorem untitled_token_reused_after_close_all :
    (regRun noFileFS (emptyManager, 0)
        [RegOp.create none, RegOp.closeAll, RegOp.create none]).2 = [1, 1] ∧
      ¬ ((regRun noFileFS (emptyManager, 0)
        [RegOp.create none, RegOp.closeAll, RegOp.create none]).2).Nodup := by
  constructor
  · rfl
  · intro h
    rw [show (regRun noFileFS (emptyManager, 0)
        [RegOp.create none, RegOp.closeAll, RegOp.create none]).2 = [1, 1] from rfl] at h
    simp at h

theorem regStep_counter_token {fs : FS} {st : DocManager × Nat} {op : RegOp}
    (h : op ≠ RegOp.closeAll) :
    st.1.untitledCounter ≤ (regStep fs st op).1.1.untitledCounter ∧
      ((regStep fs st op).2 = [] ∨
        ((regStep fs st op).2 = [(regStep fs st op).1.1.untitledCounter] ∧
          st.1.untitledCounter < (regStep fs st op).1.1.untitledCounter)) := by
  obtain ⟨m, fresh⟩ := st
  cases op with
  | create p =>
      cases p with
      | none =>
          simp [regStep, createDocument, nextUntitled]
      | some q =>
          by_cases hex : fs.fileExists (fs.norm q) <;>
            simp [regStep, createDocument, hex]
  | createTemplate tp sp =>
      by_cases htp : fs.fileExists (fs.norm tp)
      · cases sp with
        | none => simp [regStep, createFromTemplate, htp, nextUntitled]
        | some q =>
            by_cases hex : fs.fileExists (fs.norm q) <;>
              simp [regStep, createFromTemplate, htp, hex]
      · simp [regStep, createFromTemplate, htp]
  | openDoc p =>
      cases hl : dictLookup (fs.norm p) m.documents with
      | some d => simp [regStep, openDocument, hl]
      | none =>
          by_cases hex : fs.fileExists (fs.norm p) <;>
            simp [regStep, openDocument, hl, hex]
  | save p sa =>
      cases hl : dictLookup (resolveKey fs p) m.documents with
      | none => simp [regStep, saveDocument, hl]
      | some d =>
          cases sa with
          | some q => simp [regStep, saveDocument, hl]
          | none =>
              by_cases hu : pyStartsWith (resolveKey fs p) "Untitled-" <;>
                simp [regStep, saveDocument, hl, hu]
  | close p =>
      cases hl : dictLookup (resolveKey fs p) m.documents with
      | none => simp [regStep, closeDocument, hl]
      | some d => simp [regStep, closeDocument, hl]
  | closeAll => exact absurd rfl h

theorem regRun_tokens_bounds (fs : FS) (ops : List RegOp)
    (h : RegOp.closeAll ∉ ops) :
    ∀ st : DocManager × Nat,
      st.1.untitledCounter ≤ (regRun fs st ops).1.1.untitledCounter ∧
      List.Chain' (· < ·) (regRun fs st ops).2 ∧
      (∀ t ∈ (regRun fs st ops).2,
        st.1.untitledCounter < t ∧ t ≤ (regRun fs st ops).1.1.untitledCounter) := by
  induction ops with
  | nil => intro st; simp [regRun]
  | cons op rest ih =>
      intro st
      have hop : op ≠ RegOp.closeAll := fun he => h (he ▸ List.mem_cons_self op rest)
      have hrest : RegOp.closeAll ∉ rest := fun hm => h (List.mem_cons_of_mem op hm)
      obtain ⟨hle, htok⟩ := @regStep_counter_token fs st op hop
      obtain ⟨hle', hchain', hbound'⟩ := ih hrest (regStep fs st op).1
      refine ⟨le_trans hle hle', ?_, ?_⟩
      · show List.Chain' (· < ·) ((regStep fs st op).2 ++ (regRun fs (regStep fs st op).1 rest).2)
        rcases htok with hnil | ⟨hone, hlt⟩
        · simpa [hnil] using hchain'
        · rw [hone]
          refine List.chain'_cons'.mpr ⟨?_, hchain'⟩
          intro y hy
          have hmem : y ∈ (regRun fs (regStep fs st op).1 rest).2 :=
            List.mem_of_mem_head? hy
          exact (hbound' y hmem).1
      · intro t ht
        show st.1.untitledCounter < t ∧ t ≤ (regRun fs (regStep fs st op).1 rest).1.1.untitledCounter
        rcases List.mem_append.mp ht with hl | hr
        · rcases htok with hnil | ⟨hone, hlt⟩
          · rw [hnil] at hl; simp at hl
          · rw [hone] at hl
            simp at hl
            subst hl
            exact ⟨hlt, hle'⟩
        · exact ⟨lt_of_le_of_lt hle (hbound' t hr).1, (hbound' t hr).2⟩

/-- C6 amended: within any sequence of registry operations that contains
no `close_all`, the generated `Untitled-N` placeholder values are
strictly increasing and no value is generated twice; `close_all` on a
nonempty registry resets the counter, after which values restart at 1
(see the counterexample). -/
theorem untitled_tokens_strictly_increasing_without_close_all (fs : FS)
    (st : DocManager × Nat) (ops : List RegOp) (h : RegOp.closeAll ∉ ops) :
    List.Chain' (· < ·) (regRun fs st ops).2 ∧ ((regRun fs st ops).2).Nodup := by
  obtain ⟨-, hchain, -⟩ := regRun_tokens_bounds fs ops h st
  refine ⟨hchain, ?_⟩
  exact (List.chain'_iff_pairwise.mp hchain).nodup

theorem untitled_tokens_strictly_increasing_without_close_all_witness :
    List.Chain' (· < ·)
        (regRun noFileFS (emptyManager, 0) [RegOp.create none, RegOp.create none]).2 ∧
      ((regRun noFileFS (emptyManager, 0) [RegOp.create none, RegOp.create none]).2).Nodup :=
  untitled_tokens_strictly_increasing_without_close_all noFileFS (emptyManager, 0)
    [RegOp.create none, RegOp.create none] (by decide)

/-- C7: on any registry state in which the key is a registered
placeholder token, `save_document` without a save-as target fails with
the cannot-save-untitled `ValueError`, performs no filesystem effect
(no directory creation, no file write) and leaves the registry
unchanged. -/
theorem save_on_registered_placeholder_fails (fs : FS) (m : DocManager)
    (key : String) (hdl : Handle) (hpre : pyStartsWith key "Untitled-" = true)
    (hreg : dictLookup key m.documents = some hdl) :
    saveDocument fs m key none =
      ⟨Except.error DMErr.cannotSaveUntitled, m, []⟩ := by
  have hkey : resolveKey fs key = key := by simp [resolveKey, hpre]
  simp [saveDocument, hkey, hreg, hpre]

theorem save_on_registered_placeholder_fails_witness :
    saveDocument noFileFS ⟨[("Untitled-1", 0)], 1⟩ "Untitled-1" none =
      ⟨Except.error DMErr.cannotSaveUntitled, ⟨[("Untitled-1", 0)], 1⟩, []⟩ :=
  save_on_registered_placeholder_fails noFileFS ⟨[("Untitled-1", 0)], 1⟩
    "Untitled-1" 0 (by decide) (by decide)

theorem dictInsert_mem_keys (k : String) (v : Handle) (l : List (String × Handle))
    (x : String) (hx : x ∈ (dictInsert k v l).map Prod.fst) :
    x ∈ l.map Prod.fst ∨ x = k := by
  induction l with
  | nil =>
      have hins : dictInsert k v [] = [(k, v)] := rfl
      rw [hins] at hx
      simp at hx
      exact Or.inr hx
  | cons p rest ih =>
      obtain ⟨k0, v0⟩ := p
      by_cases he : k0 = k
      · have hins : dictInsert k v ((k0, v0) :: rest) = (k0, v) :: rest := by
          unfold dictInsert; rw [if_pos he]
        rw [hins, List.map_cons] at hx
        rw [List.map_cons]
        exact Or.inl hx
      · have hins : dictInsert k v ((k0, v0) :: rest) = (k0, v0) :: dictInsert k v rest := by
          simp [dictInsert, he]
        rw [hins, List.map_cons, List.mem_cons] at hx
        rw [List.map_cons]
        rcases hx with h1 | h1
        · exact Or.inl (List.mem_cons.mpr (Or.inl h1))
        · rcases ih h1 with hin | hk
          · exact Or.inl (List.mem_cons.mpr (Or.inr hin))
          · exact Or.inr hk

/-- Keys of the registry dict stay distinct under dict assignment. -/
theorem dictInsert_keys_nodup (k : String) (v : Handle) (l : List (String × Handle))
    (h : (l.map Prod.fst).Nodup) : ((dictInsert k v l).map Prod.fst).Nodup := by
  induction l with
  | nil => simp [dictInsert]
  | cons p rest ih =>
      obtain ⟨k0, v0⟩ := p
      rw [List.map_cons, List.nodup_cons] at h
      by_cases he : k0 = k
      · have hins : dictInsert k v ((k0, v0) :: rest) = (k0, v) :: rest := by
          unfold dictInsert; rw [if_pos he]
        rw [hins, List.map_cons, List.nodup_cons]
        exact h
      · have hins : dictInsert k v ((k0, v0) :: rest) = (k0, v0) :: dictInsert k v rest := by
          simp [dictInsert, he]
        rw [hins, List.map_cons, List.nodup_cons]
        refine ⟨?_, ih h.2⟩
        intro hmem
        rcases dictInsert_mem_keys k v rest k0 hmem with hin | hk
        · exact h.1 hin
        · exact he hk

/-- C8: opening a path whose normalized key is already registered
returns exactly the registered handle, leaves the registry untouched
(no second entry) and does not read the file from disk; and any open
operation preserves distinctness of registry keys, so at most one
handle is registered per key. -/
theorem open_already_registered_idempotent (fs : FS) (m : DocManager)
    (fresh : Handle) (p : String) (hdl : Handle)
    (hreg : dictLookup (fs.norm p) m.documents = some hdl) :
    openDocument fs m fresh p = Except.ok (hdl, m, false) ∧
    (∀ q r m' b, (m.documents.map Prod.fst).Nodup →
      openDocument fs m fresh q = Except.ok (r, m', b) →
      (m'.documents.map Prod.fst).Nodup) := by
  constructor
  · simp [openDocument, hreg]
  · intro q r m' b hnd hop
    cases hl : dictLookup (fs.norm q) m.documents with
    | some d =>
        simp only [openDocument, hl] at hop
        simp at hop
        rw [← hop.2.1]
        exact hnd
    | none =>
        simp only [openDocument, hl] at hop
        by_cases hex : fs.fileExists (fs.norm q)
        · simp [hex] at hop
          rw [← hop.2.1]
          exact dictInsert_keys_nodup _ _ _ hnd
        · simp [hex] at hop

theorem open_already_registered_idempotent_witness :
    openDocument noFileFS ⟨[("/a.docx", 5)], 0⟩ 9 "/a.docx" =
      Except.ok (5, ⟨[("/a.docx", 5)], 0⟩, false) :=
  (open_already_registered_idempotent noFileFS ⟨[("/a.docx", 5)], 0⟩ 9 "/a.docx" 5
    (by decide)).1

/-! ### Automation bridge operations

The COM side of a bridge call is abstracted to `Except String ComDoc`:
`Except.error e` models an exception raised inside the `with
com_pool.get_word_app()` block (caught by the `except` that renders the
COM-automation-failed message), `Except.ok d` the opened COM document.
Mutating COM calls issued on the document are recorded as `ComEvent`s;
a run that issues no event leaves the file as found (the pool cleanup
closes any open document with `SaveChanges=0`). -/

structure ComRevision where
  typ : Int
  author : String
  date : String
  text : String
deriving DecidableEq, Repr

structure ComDoc where
  trackRevisions : Bool
  paragraphs : List ComPara
  revisions : List ComRevision
deriving DecidableEq, Repr

inductive ComEvent
  | setTracking (enabled : Bool)
  | insertAfterContent (text : String)
  | insertBefore (comIndex : Nat) (text : String)
  | replaceText (comIndex : Nat) (text : String)
  | deleteRange (comIndex : Nat)
  | saveDoc
deriving DecidableEq, Repr

structure BridgeResult where
  message : String
  dm : DocManager
  comEvents : List ComEvent
deriving DecidableEq, Repr

/-- Python `s[:80].replace(chr(13), chr(32)).replace(chr(7), chr(0))`-less
preview sanitizer of tracked_editing.py lines 180, 292, 407:
`para_text[:80]` then carriage returns replaced by spaces, then cell
markers (BEL, 0x07) removed. -/
def previewSanitize (s : String) : String :=
  String.mk (((s.toList.take 80).map (fun c => if c = '\r' then ' ' else c)).filter
    (fun c => !(c = '\x07')))

/-- Python default `str.strip` / `str.rstrip` whitespace set. -/
def pyIsSpace (c : Char) : Bool :=
  c = ' ' || c = '\t' || c = '\n' || c = '\r' || c = '\x0b' || c = '\x0c'

def pyStrip (s : String) : String :=
  String.mk (((s.toList.dropWhile pyIsSpace).reverse.dropWhile pyIsSpace).reverse)

def pyStripRight (s : String) : String :=
  String.mk ((s.toList.reverse.dropWhile pyIsSpace).reverse)

/-- The content-verification error built at tracked_editing.py lines
181-185 (and identically at 292-297 and 407-412). -/
def verificationFailedMessage (index : Int) (expected actualText : String) : String :=
  "Error: Content verification failed for paragraph " ++ toString index ++
    ". Expected text containing '" ++ expected ++ "' but found: '" ++
    previewSanitize actualText ++
    "'. The paragraph may have shifted -- re-read the document."

def comFailedMessage (e : String) : String :=
  "Error: COM automation failed: " ++ e ++ ". Ensure Microsoft Word is installed."

def trackingNotEnabledMessage : String :=
  "Error: Tracked changes are not enabled on this document. Call enable_tracked_changes first."

def mustSaveAsMessage (activity : String) : String :=
  "Error: Document must be saved to disk before " ++ activity ++
    ". Use save_document_as first."

def mustSaveMessage (activity : String) : String :=
  "Error: Document must be saved to disk before " ++ activity ++
    ". Use save_document first."

def editSuccessMessage (index : Int) (oldText newText author : String) : String :=
  "Edited tracked paragraph " ++ toString index ++ ". Was: '" ++
    (if oldText.length > 50 then pyStrip (String.mk (oldText.toList.take 50)) ++ "..."
     else pyStrip oldText) ++
    "' -> Now: '" ++
    (if newText.length > 50 then String.mk (newText.toList.take 50) ++ "..." else newText) ++
    "'. Changes tracked as revisions by '" ++ author ++ "'."

def addSuccessMessage (positionStr text author : String) : String :=
  "Added tracked paragraph at " ++ positionStr ++ ": '" ++
    (if text.length > 50 then String.mk (text.toList.take 50) ++ "..." else text) ++
    "'. Revision will appear as insertion by '" ++ author ++ "'."

/-- `tracked_edit_paragraph` (tracked_editing.py lines 213-327).  The
COM index is looked up through the translator; `Range.Text` of the
target paragraph is the paragraph's stored text.  On success the
replacement and save are issued and the registry entry for the key is
replaced by a freshly loaded handle
(`document_manager._documents[key] = Document(key)`, line 316); on the
verification-failure path the function returns before any mutating
call, so no event is issued and the registry is untouched. -/
def trackedEditParagraph (fs : FS) (com : Except String ComDoc) (m : DocManager)
    (fresh : Handle) (path : String) (index : Int) (newText author : String)
    (expected : Option String) : BridgeResult :=
  let key := resolveKey fs path
  match dictLookup key m.documents with
  | none => ⟨"Error: Document not open: " ++ path, m, []⟩
  | some _ =>
      if pyStartsWith key "Untitled-" then
        ⟨mustSaveAsMessage "tracked editing", m, []⟩
      else if !(fs.fileExists key) then
        ⟨mustSaveMessage "tracked editing", m, []⟩
      else
        match com with
        | Except.error e => ⟨comFailedMessage e, m, []⟩
        | Except.ok comDoc =>
            if !comDoc.trackRevisions then
              ⟨trackingNotEnabledMessage, m, []⟩
            else
              match translateParagraphIndex comDoc.paragraphs index with
              | Except.error te => ⟨"Error: " ++ transErrMessage te, m, []⟩
              | Except.ok comIndex =>
                  let oldText := (comDoc.paragraphs.getD (comIndex - 1) ⟨none, ""⟩).text
                  let proceed : BridgeResult :=
                    ⟨editSuccessMessage index oldText newText author,
                      { m with documents := dictInsert key fresh m.documents },
                      [ComEvent.replaceText comIndex newText, ComEvent.saveDoc]⟩
                  match expected with
                  | some exp =>
                      if pyContains oldText exp then proceed
                      else ⟨verificationFailedMessage index exp oldText, m, []⟩
                  | none => proceed

/-- `tracked_add_paragraph` (tracked_editing.py lines 92-210), with the
`position` string already parsed: `none` is `"end"`, `some i` a numeric
position (the non-numeric-string branch is outside the model).  The
verification guard runs only on the numeric-position path, as in the
source. -/
def trackedAddParagraph (fs : FS) (com : Except String ComDoc) (m : DocManager)
    (fresh : Handle) (path text : String) (position : Option Int) (author : String)
    (expected : Option String) : BridgeResult :=
  let key := resolveKey fs path
  match dictLookup key m.documents with
  | none => ⟨"Error: Document not open: " ++ path, m, []⟩
  | some _ =>
      if pyStartsWith key "Untitled-" then
        ⟨mustSaveAsMessage "tracked editing", m, []⟩
      else if !(fs.fileExists key) then
        ⟨mustSaveMessage "tracked editing", m, []⟩
      else
        match position with
        | some i =>
            if i < 0 then
              ⟨"Error: Invalid position " ++ toString i ++
                ". Must be 'end' or a non-negative integer.", m, []⟩
            else
              match com with
              | Except.error e => ⟨comFailedMessage e, m, []⟩
              | Except.ok comDoc =>
                  if !comDoc.trackRevisions then
                    ⟨trackingNotEnabledMessage, m, []⟩
                  else
                    match translateParagraphIndex comDoc.paragraphs i with
                    | Except.error te => ⟨"Error: " ++ transErrMessage te, m, []⟩
                    | Except.ok comIndex =>
                        let paraText :=
                          (comDoc.paragraphs.getD (comIndex - 1) ⟨none, ""⟩).text
                        let proceed : BridgeResult :=
                          ⟨addSuccessMessage (toString i) text author,
                            { m with documents := dictInsert key fresh m.documents },
                            [ComEvent.insertBefore comIndex (text ++ "\r"),
                             ComEvent.saveDoc]⟩
                        match expected with
                        | some exp =>
                            if pyContains paraText exp then proceed
                            else ⟨verificationFailedMessage i exp paraText, m, []⟩
                        | none => proceed
        | none =>
            match com with
            | Except.error e => ⟨comFailedMessage e, m, []⟩
            | Except.ok comDoc =>
                if !comDoc.trackRevisions then
                  ⟨trackingNotEnabledMessage, m, []⟩
                else
                  ⟨addSuccessMessage "end" text author,
                    { m with documents := dictInsert key fresh m.documents },
                    [ComEvent.insertAfterContent ("\r" ++ text), ComEvent.saveDoc]⟩

/-- `enable_tracked_changes` (tracked_changes.py lines 48-109): sets the
tracking flags, saves, and replaces the registry entry with a freshly
loaded handle (line 100). -/
def enableTrackedChanges (fs : FS) (com : Except String ComDoc) (m : DocManager)
    (fresh : Handle) (path author : String) : BridgeResult :=
  let key := resolveKey fs path
  match dictLookup key m.documents with
  | none => ⟨"Error: Document not open: " ++ path, m, []⟩
  | some _ =>
      if pyStartsWith key "Untitled-" then
        ⟨mustSaveAsMessage "enabling tracked changes", m, []⟩
      else if !(fs.fileExists key) then
        ⟨mustSaveMessage "enabling tracked changes", m, []⟩
      else
        match com with
        | Except.error e => ⟨comFailedMessage e, m, []⟩
        | Except.ok _ =>
            ⟨"Tracked changes enabled on '" ++ fs.baseName key ++
                "'. Author set to '" ++ author ++
                "'. All subsequent COM-based edits will be tracked.",
              { m with documents := dictInsert key fresh m.documents },
              [ComEvent.setTracking true, ComEvent.saveDoc]⟩

/-- The `REVISION_TYPES` dict of tracked_changes.py lines 22-45. -/
def revisionTypes : List (Int × String) :=
  [(0, "NoRevision"), (1, "Insertion"), (2, "Deletion"), (3, "Property"),
   (4, "ParagraphNumber"), (5, "DisplayField"), (6, "ReconcileField"),
   (7, "ConflictField"), (8, "Style"), (9, "Replace"), (10, "ParagraphProperty"),
   (11, "TableProperty"), (12, "SectionProperty"), (13, "StyleDefinition"),
   (14, "MovedFrom"), (15, "MovedTo"), (16, "CellInsertion"), (17, "CellDeletion"),
   (18, "CellMerge"), (19, "ConflictInsertion"), (20, "ConflictDeletion"),
   (21, "ConflictDelete")]

/-- `REVISION_TYPES.get(rev.Type, f"Unknown(...)")` (line 217). -/
def revisionTypeName (t : Int) : String :=
  match revisionTypes.lookup t with
  | some s => s
  | none => "Unknown(" ++ toString t ++ ")"

/-- One formatted entry of the revision listing (lines 249-250); `i` is
the 1-based COM revision index. -/
def formatRevision (i : Nat) (r : ComRevision) : String :=
  "[" ++ toString i ++ "] " ++ revisionTypeName r.typ ++ " by '" ++ r.author ++
    "' on " ++ r.date ++ "\n" ++ "    Text: \"" ++ r.text ++ "\"\n"

def formatRevisions (i : Nat) : List ComRevision → String
  | [] => ""
  | r :: rest => formatRevision i r ++ formatRevisions (i + 1) rest

/-- `get_tracked_changes` (tracked_changes.py lines 169-258): a
read-only bridge operation.  The COM document is closed without saving
and — unlike every mutating bridge operation — the function contains no
`document_manager._documents[key] = Document(key)` line, so the
registry is returned untouched on every path. -/
def getTrackedChanges (fs : FS) (com : Except String ComDoc) (m : DocManager)
    (path : String) : BridgeResult :=
  let key := resolveKey fs path
  match dictLookup key m.documents with
  | none => ⟨"Error: Document not open: " ++ path, m, []⟩
  | some _ =>
      if pyStartsWith key "Untitled-" then
        ⟨mustSaveAsMessage "reading tracked changes", m, []⟩
      else if !(fs.fileExists key) then
        ⟨mustSaveMessage "reading tracked changes", m, []⟩
      else
        match com with
        | Except.error e => ⟨comFailedMessage e, m, []⟩
        | Except.ok comDoc =>
            if comDoc.revisions.isEmpty then
              ⟨"No tracked changes found in '" ++ fs.baseName key ++ "'.", m, []⟩
            else
              ⟨pyStripRight
                  ("Tracked changes in '" ++ fs.baseName key ++ "': " ++
                    toString comDoc.revisions.length ++ " revision(s)\n\n" ++
                    formatRevisions 1 comDoc.revisions), m, []⟩

theorem dictLookup_dictInsert_self (k : String) (v : Handle) (l : List (String × Handle)) :
    dictLookup k (dictInsert k v l) = some v := by
  induction l with
  | nil => simp [dictInsert, dictLookup]
  | cons p rest ih =>
      obtain ⟨k0, v0⟩ := p
      by_cases he : k0 = k
      · simp [dictInsert, dictLookup, he]
      · simp [dictInsert, dictLookup, he, ih]

/-- C4: when the target paragraph's full text (trailing markers
included) does not contain the caller's expected substring, the
tracked-edit and tracked-insert operations return the content
verification error — which carries the caller's index, the expected
substring, and the sanitized 80-character preview of the actual text —
before issuing any mutating COM call (no replacement, no insert, no
save) and with the registry untouched; when the substring is contained,
or no expected text is supplied, the mutation and save are issued. -/
theorem content_guard_aborts_before_mutation
    (fs : FS) (comDoc : ComDoc) (m : DocManager) (fresh h0 : Handle) (path : String)
    (index : Int) (newText author exp oldText : String) (comIndex : Nat)
    (hreg : dictLookup (resolveKey fs path) m.documents = some h0)
    (hnp : pyStartsWith (resolveKey fs path) "Untitled-" = false)
    (hex : fs.fileExists (resolveKey fs path) = true)
    (htrack : comDoc.trackRevisions = true)
    (htrans : translateParagraphIndex comDoc.paragraphs index = Except.ok comIndex)
    (hold : (comDoc.paragraphs.getD (comIndex - 1) ⟨none, ""⟩).text = oldText) :
    (verificationFailedMessage index exp oldText =
      "Error: Content verification failed for paragraph " ++ toString index ++
        ". Expected text containing '" ++ exp ++ "' but found: '" ++
        previewSanitize oldText ++
        "'. The paragraph may have shifted -- re-read the document.") ∧
    (pyContains oldText exp = false →
      trackedEditParagraph fs (Except.ok comDoc) m fresh path index newText author
          (some exp) =
        ⟨verificationFailedMessage index exp oldText, m, []⟩) ∧
    (pyContains oldText exp = true →
      (trackedEditParagraph fs (Except.ok comDoc) m fresh path index newText author
          (some exp)).comEvents =
        [ComEvent.replaceText comIndex newText, ComEvent.saveDoc]) ∧
    ((trackedEditParagraph fs (Except.ok comDoc) m fresh path index newText author
        none).comEvents =
      [ComEvent.replaceText comIndex newText, ComEvent.saveDoc]) ∧
    (0 ≤ index → pyContains oldText exp = false →
      trackedAddParagraph fs (Except.ok comDoc) m fresh path newText (some index) author
          (some exp) =
        ⟨verificationFailedMessage index exp oldText, m, []⟩) ∧
    (0 ≤ index → pyContains oldText exp = true →
      (trackedAddParagraph fs (Except.ok comDoc) m fresh path newText (some index) author
          (some exp)).comEvents =
        [ComEvent.insertBefore comIndex (newText ++ "\r"), ComEvent.saveDoc]) := by
  have hold2 := hold
  simp only [List.getD_eq_getElem?_getD] at hold2
  refine ⟨rfl, ?_, ?_, ?_, ?_, ?_⟩
  · intro hC
    simp [trackedEditParagraph, hreg, hnp, hex, htrack, htrans, hold2, hC]
  · intro hC
    simp [trackedEditParagraph, hreg, hnp, hex, htrack, htrans, hold2, hC]
  · simp [trackedEditParagraph, hreg, hnp, hex, htrack, htrans, hold2]
  · intro hnn hC
    simp [trackedAddParagraph, hreg, hnp, hex, htrack, htrans, hold2, hC,
      Int.not_lt.mpr hnn]
  · intro hnn hC
    simp [trackedAddParagraph, hreg, hnp, hex, htrack, htrans, hold2, hC,
      Int.not_lt.mpr hnn]

def allFileFS : FS := ⟨fun _ => true, fun s => s, fun s => s⟩

theorem content_guard_aborts_before_mutation_witness :
    trackedEditParagraph allFileFS
        (Except.ok ⟨true, [⟨some false, "Hello world\r"⟩], []⟩)
        ⟨[("/d.docx", 3)], 0⟩ 9 "/d.docx" 0 "new text" "Claude" (some "xyz") =
      ⟨verificationFailedMessage 0 "xyz" "Hello world\r", ⟨[("/d.docx", 3)], 0⟩, []⟩ :=
  (content_guard_aborts_before_mutation allFileFS
      ⟨true, [⟨some false, "Hello world\r"⟩], []⟩ ⟨[("/d.docx", 3)], 0⟩ 9 3 "/d.docx"
      0 "new text" "Claude" "xyz" "Hello world\r" 1
      (by decide) (by decide) rfl rfl rfl rfl).2.1 (by decide)

/-- On every control path of the read-only revision listing the registry
is returned untouched: the source contains no reload assignment. -/
theorem getTrackedChanges_dm_eq (fs : FS) (com : Except String ComDoc)
    (m : DocManager) (path : String) : (getTrackedChanges fs com m path).dm = m := by
  simp only [getTrackedChanges]
  cases hl : dictLookup (resolveKey fs path) m.documents with
  | none => rfl
  | some d =>
      by_cases h1 : pyStartsWith (resolveKey fs path) "Untitled-"
      · simp [h1]
      · by_cases h2 : fs.fileExists (resolveKey fs path)
        · cases com with
          | error e => simp [h1, h2]
          | ok comDoc =>
              by_cases h3 : comDoc.revisions.isEmpty <;> simp [h1, h2, h3]
        · simp [h1, h2]

/-- C5 counterexample: a successful run of the revision-reading bridge
operation (`get_tracked_changes`) on a registered, saved key leaves the
registry's handle for that key exactly as it was — handle 7 before,
handle 7 after — contradicting the claim that the in-memory handle is
discarded and replaced with a new handle after every bridge operation,
reading revisions included. -/
theorem get_tracked_changes_keeps_old_handle :
    (getTrackedChanges allFileFS (Except.ok ⟨true, [], []⟩)
        ⟨[("/d.docx", 7)], 0⟩ "/d.docx").message =
      "No tracked changes found in '/d.docx'." ∧
    (getTrackedChanges allFileFS (Except.ok ⟨true, [], []⟩)
        ⟨[("/d.docx", 7)], 0⟩ "/d.docx").dm = ⟨[("/d.docx", 7)], 0⟩ ∧
    dictLookup "/d.docx"
      ((getTrackedChanges allFileFS (Except.ok ⟨true, [], []⟩)
        ⟨[("/d.docx", 7)], 0⟩ "/d.docx").dm).documents = some 7 := by
  refine ⟨?_, ?_, ?_⟩ <;> rfl

/-- C5 amended: after every successful mutating bridge operation
(tracked insert shown, enable-tracking shown) the registry entry for
the key is replaced wholesale — same key, a freshly constructed handle
different from the old one — while the read-only revision-reading
operation leaves the registry untouched on every path. -/
theorem bridge_reload_after_mutating_ops
    (fs : FS) (comDoc : ComDoc) (m : DocManager) (fresh h0 : Handle)
    (path text author : String)
    (hreg : dictLookup (resolveKey fs path) m.documents = some h0)
    (hnp : pyStartsWith (resolveKey fs path) "Untitled-" = false)
    (hex : fs.fileExists (resolveKey fs path) = true)
    (htrack : comDoc.trackRevisions = true)
    (hfresh : fresh ≠ h0) :
    ((trackedAddParagraph fs (Except.ok comDoc) m fresh path text none author
        none).dm.documents = dictInsert (resolveKey fs path) fresh m.documents) ∧
    (dictLookup (resolveKey fs path)
        ((trackedAddParagraph fs (Except.ok comDoc) m fresh path text none author
          none).dm.documents) = some fresh ∧ fresh ≠ h0) ∧
    ((enableTrackedChanges fs (Except.ok comDoc) m fresh path author).dm.documents =
      dictInsert (resolveKey fs path) fresh m.documents) ∧
    (∀ (fs2 : FS) (com2 : Except String ComDoc) (m2 : DocManager) (p2 : String),
      (getTrackedChanges fs2 com2 m2 p2).dm = m2) := by
  have hadd : (trackedAddParagraph fs (Except.ok comDoc) m fresh path text none author
      none).dm.documents = dictInsert (resolveKey fs path) fresh m.documents := by
    simp [trackedAddParagraph, hreg, hnp, hex, htrack]
  refine ⟨hadd, ⟨?_, hfresh⟩, ?_, ?_⟩
  · rw [hadd]
    exact dictLookup_dictInsert_self _ _ _
  · simp [enableTrackedChanges, hreg, hnp, hex]
  · intro fs2 com2 m2 p2
    exact getTrackedChanges_dm_eq fs2 com2 m2 p2

theorem bridge_reload_after_mutating_ops_witness :
    dictLookup "/d.docx"
        ((trackedAddParagraph allFileFS (Except.ok ⟨true, [], []⟩)
          ⟨[("/d.docx", 7)], 0⟩ 8 "/d.docx" "hi" none "Claude" none).dm.documents) =
      some 8 ∧ (8 : Handle) ≠ 7 :=
  (bridge_reload_after_mutating_ops allFileFS ⟨true, [], []⟩ ⟨[("/d.docx", 7)], 0⟩
    8 7 "/d.docx" "hi" "Claude" (by decide) (by decide) rfl rfl (by decide)).2.1

/-- C10: a caller-supplied path that begins with `Untitled-` is treated
as a placeholder key by the string test alone, before any
normalization: `save_document`, `get_document` and `close_document` on
it never consult the normalizer (their results are identical for any
two normalization functions); save without a target always fails
without writing a file or creating a directory — even on a filesystem
where the path exists — and fails with the placeholder InvalidState
error when the key is registered; and the tracked-editing bridge
rejects the key as unsaved even when the file exists on disk. -/
theorem placeholder_test_precedes_normalization
    (ex : String → Bool) (n1 n2 b1 b2 : String → String) (m : DocManager) (p : String)
    (hp : pyStartsWith p "Untitled-" = true) :
    (saveDocument ⟨ex, n1, b1⟩ m p none = saveDocument ⟨ex, n2, b2⟩ m p none) ∧
    (getDocument ⟨ex, n1, b1⟩ m p = getDocument ⟨ex, n2, b2⟩ m p) ∧
    (closeDocument ⟨ex, n1, b1⟩ m p = closeDocument ⟨ex, n2, b2⟩ m p) ∧
    ((saveDocument ⟨ex, n1, b1⟩ m p none).effects = [] ∧
      (saveDocument ⟨ex, n1, b1⟩ m p none).dm = m ∧
      ∃ e, (saveDocument ⟨ex, n1, b1⟩ m p none).res = Except.error e) ∧
    (∀ hdl, dictLookup p m.documents = some hdl →
      (saveDocument ⟨ex, n1, b1⟩ m p none).res =
        Except.error DMErr.cannotSaveUntitled) ∧
    (∀ (hdl : Handle) (com : Except String ComDoc) (fresh : Handle)
        (text author : String) (position : Option Int) (expected : Option String),
      dictLookup p m.documents = some hdl →
      trackedAddParagraph ⟨ex, n1, b1⟩ com m fresh p text position author expected =
        ⟨mustSaveAsMessage "tracked editing", m, []⟩) := by
  have hk1 : resolveKey ⟨ex, n1, b1⟩ p = p := by simp [resolveKey, hp]
  have hk2 : resolveKey ⟨ex, n2, b2⟩ p = p := by simp [resolveKey, hp]
  refine ⟨?_, ?_, ?_, ?_, ?_, ?_⟩
  · cases hl : dictLookup p m.documents with
    | none => simp [saveDocument, hk1, hk2, hl]
    | some d => simp [saveDocument, hk1, hk2, hl, hp]
  · cases hl : dictLookup p m.documents with
    | none => simp [getDocument, hk1, hk2, hl]
    | some d => simp [getDocument, hk1, hk2, hl]
  · cases hl : dictLookup p m.documents with
    | none => simp [closeDocument, hk1, hk2, hl]
    | some d => simp [closeDocument, hk1, hk2, hl]
  · cases hl : dictLookup p m.documents with
    | none =>
        exact ⟨by simp [saveDocument, hk1, hl], by simp [saveDocument, hk1, hl],
          DMErr.notOpen p, by simp [saveDocument, hk1, hl]⟩
    | some d =>
        exact ⟨by simp [saveDocument, hk1, hl, hp], by simp [saveDocument, hk1, hl, hp],
          DMErr.cannotSaveUntitled, by simp [saveDocument, hk1, hl, hp]⟩
  · intro hdl hl
    simp [saveDocument, hk1, hl, hp]
  · intro hdl com fresh text author position expected hl
    simp [trackedAddParagraph, hk1, hl, hp]

theorem placeholder_test_precedes_normalization_witness :
    trackedAddParagraph ⟨fun _ => true, fun s => s, fun s => s⟩
        (Except.ok ⟨true, [], []⟩) ⟨[("Untitled-1.docx", 4)], 0⟩ 9 "Untitled-1.docx"
        "hi" none "Claude" none =
      ⟨mustSaveAsMessage "tracked editing", ⟨[("Untitled-1.docx", 4)], 0⟩, []⟩ :=
  (placeholder_test_precedes_normalization (fun _ => true) (fun s => s)
      (fun s => s ++ "X") (fun s => s) (fun s => s) ⟨[("Untitled-1.docx", 4)], 0⟩
      "Untitled-1.docx" (by decide)).2.2.2.2.2 4 (Except.ok ⟨true, [], []⟩) 9 "hi"
      "Claude" none none (by decide)

end WordMcp
